import Mathlib

/-!
# Verification of the NativeScript NFC plugin (iOS binding)

Shallow embedding of the plugin's iOS TypeScript binding (`nfc.ios.ts`) and the
Swift `NFCManager` bridge, with theorems checking the natural-language
specification against the code.

Conventions:
* JavaScript strings are modelled as Lean `String`; raw tag bytes (`NSData` /
  `Uint8Array`) as `List (Fin 256)`.
* JavaScript `undefined` / `NaN` propagation is modelled with `Option`.
* Promise outcomes are modelled with an explicit `Promised` type; a promise
  that is still waiting on a native callback is `.pending`.
-/

/-! ## JavaScript primitives used by the decoder -/

/-- Digit characters produced by JavaScript `Number.prototype.toString(16)`. -/
def jsHexDigitChar (n : Nat) : Char :=
  "0123456789abcdef".toList.getD n '0'

/-- Hex digit list of a natural number, most significant first; the `fuel`
argument only forces structural termination (`n + 1` steps always suffice). -/
def natToHexAux : Nat → Nat → List Char
  | 0, _ => []
  | fuel + 1, n =>
    if n < 16 then [jsHexDigitChar n]
    else natToHexAux fuel (n / 16) ++ [jsHexDigitChar (n % 16)]

/-- JavaScript `x.toString(16)` for a non-negative integer `x`. -/
def jsToString16 (n : Nat) : String :=
  String.mk (natToHexAux (n + 1) n)

/-- JavaScript `s.slice(-2)`: the last two characters (whole string if shorter). -/
def jsSliceLastTwo (s : String) : String :=
  String.mk (s.toList.drop (s.toList.length - 2))

/-- The mapper `x => ('00' + x.toString(16)).slice(-2)` used by
`buf2hexString` / `buf2hexArray` in `NFCNDEFReaderSessionDelegateImpl`. -/
def jsByteToHex (x : Nat) : String :=
  jsSliceLastTwo ("00" ++ jsToString16 x)

/-- JavaScript `array.join('')` on a list of strings. -/
def jsJoinEmpty : List String → String
  | [] => ""
  | s :: rest => s ++ jsJoinEmpty rest

/-- `NFCNDEFReaderSessionDelegateImpl.buf2hexString`: map every byte of the
buffer through `('00' + x.toString(16)).slice(-2)` and join with `''`. -/
def buf2hexString (buffer : List (Fin 256)) : String :=
  jsJoinEmpty (buffer.map (fun x => jsByteToHex x.val))

/-- `NFCNDEFReaderSessionDelegateImpl.buf2hexArray`: same mapping, kept as an
array of two-character strings. -/
def buf2hexArray (buffer : List (Fin 256)) : List String :=
  buffer.map (fun x => jsByteToHex x.val)

/-- Value of a hexadecimal digit character (JavaScript `parseInt` accepts both
cases), `none` for a non-digit. -/
def hexDigitVal? (c : Char) : Option Nat :=
  if '0' ≤ c ∧ c ≤ '9' then some (c.toNat - 48)
  else if 'a' ≤ c ∧ c ≤ 'f' then some (c.toNat - 87)
  else if 'A' ≤ c ∧ c ≤ 'F' then some (c.toNat - 55)
  else none

def jsParseIntHexAux : List Char → Nat → Nat
  | [], acc => acc
  | c :: cs, acc =>
    match hexDigitVal? c with
    | some v => jsParseIntHexAux cs (acc * 16 + v)
    | none => acc

/-- JavaScript `parseInt(s, 16)` restricted to its reachable inputs here (the
one- or two-character chunks of a hex string: no whitespace, sign or `0x`
prefixing occurs): parse leading hex digits, `none` (`NaN`) when the first
character is not a hex digit. -/
def jsParseIntHex (s : String) : Option Nat :=
  match s.toList with
  | [] => none
  | c :: cs =>
    match hexDigitVal? c with
    | none => none
    | some v => some (jsParseIntHexAux cs v)

/-- JavaScript `String.fromCharCode(v)`: `ToUint16(NaN) = 0`; every reachable
value here is a byte, so the code point is always representable. -/
def jsFromCharCode (o : Option Nat) : Char :=
  match o with
  | none => Char.ofNat 0
  | some v => Char.ofNat (v % 65536)

/-- Character list of `NFCNDEFReaderSessionDelegateImpl.hex2a`: walk the hex
string two characters at a time, `String.fromCharCode(parseInt(chunk, 16))`. -/
def hex2aList : List Char → List Char
  | [] => []
  | [c] => [jsFromCharCode (jsParseIntHex (String.mk [c]))]
  | c1 :: c2 :: rest =>
    jsFromCharCode (jsParseIntHex (String.mk [c1, c2])) :: hex2aList rest

/-- `NFCNDEFReaderSessionDelegateImpl.hex2a`. -/
def hex2a (s : String) : String :=
  String.mk (hex2aList s.toList)

/-- `nsdataToHexString`: bytes of the `NSData` through `buf2hexString`. -/
def nsdataToHexString (data : List (Fin 256)) : String :=
  buf2hexString data

/-- `nsdataToHexArray`: bytes of the `NSData` through `buf2hexArray`. -/
def nsdataToHexArray (data : List (Fin 256)) : List String :=
  buf2hexArray data

/-- `nsdataToASCIIString`: `hex2a(nsdataToHexString(data))`. -/
def nsdataToASCIIString (data : List (Fin 256)) : String :=
  hex2a (nsdataToHexString data)

/-- Index of a character in the 18-character string `'0123456789abcdefgh'`
used by `hexToDec` / `hexToDecArray` (note the stray `g` → 16, `h` → 17), or
`-1` (JavaScript `indexOf`) when absent. -/
def jsIndexOfHexChars (c : Char) : Int :=
  match "0123456789abcdefgh".toList.findIdx? (· = c) with
  | some i => Int.ofNat i
  | none => -1

/-- JavaScript `String.prototype.toLowerCase` on its reachable inputs here
(ASCII hex strings). -/
def jsToLowerChar (c : Char) : Char :=
  if 'A' ≤ c ∧ c ≤ 'Z' then Char.ofNat (c.toNat + 32) else c

def jsToLower (s : String) : String :=
  String.mk (s.toList.map jsToLowerChar)

/-- JavaScript removal of the first `n` UTF-16 units of a string, used to model
`substring` and `slice` (all reachable characters are ASCII). -/
def jsDropChars (s : String) (n : Nat) : String :=
  String.mk (s.toList.drop n)

/-- `NFCNDEFReaderSessionDelegateImpl.hexToDec` on a defined string argument:
lowercase, then fold `result * 16 + indexOf(digit)`. -/
def hexToDec (hex : String) : Int :=
  ((jsToLower hex).toList).foldl (fun result c => result * 16 + jsIndexOfHexChars c) 0

/-- `NFCNDEFReaderSessionDelegateImpl.hexToDecArray`: per element the same
digit fold as `hexToDec`, then `JSON.stringify` of the number array (so the
result is a string such as `"[2,101]"`). -/
def hexToDecArray (hexArray : List String) : String :=
  "[" ++ String.intercalate "," ((hexArray.map hexToDec).map toString) ++ "]"

/-- JavaScript `ToNumber` (unary `+`) restricted to its reachable inputs here
(two lowercase hex characters from `buf2hexArray`): an all-digit string parses
as decimal, a string containing a letter is `NaN` (`none`). -/
def jsToNumber (s : String) : Option Int :=
  if !s.toList.isEmpty && s.toList.all Char.isDigit then
    some (Int.ofNat (s.toList.foldl (fun n c => n * 10 + (c.toNat - 48)) 0))
  else none

/-- Unary `+` applied to an array element that may be `undefined`
(`+undefined = NaN`). -/
def jsToNumberOpt (s? : Option String) : Option Int :=
  match s? with
  | none => none
  | some s => jsToNumber s

/-- JavaScript `s.substring(start)` where `start` may be `NaN` (`none`):
`NaN` and negative values clamp to `0`, large values to the length. -/
def jsSubstring (s : String) (start : Option Int) : String :=
  match start with
  | none => s
  | some v => jsDropChars s (max v 0).toNat

/-- Is `s` a canonical JavaScript array-index string (`"0"`, or digits without
a leading zero)? `arr[k]` for a string key only finds an element when `k` is
canonical — `arr["02"]` is `undefined`. -/
def isCanonicalIndexString (s : String) : Bool :=
  !s.toList.isEmpty && s.toList.all Char.isDigit &&
    (s == "0" || !(s.toList.head? == some '0'))

def decDigitsToNat (s : String) : Nat :=
  s.toList.foldl (fun n c => n * 10 + (c.toNat - 48)) 0

/-- JavaScript `table[key]` for a string (or `undefined`) key on an array of
strings. -/
def jsArrayGetString (table : List String) (key : Option String) : Option String :=
  match key with
  | none => none
  | some k => if isCanonicalIndexString k then table.get? (decDigitsToNat k) else none

/-! ## The URI-prefix table

Modelled from the spec: the fixed lookup table `NfcUriProtocols` lives in the
plugin's `common.ts`, which is not among the provided sources; entries follow
spec §4.1 (`0x00→"", 0x01→"http://www.", 0x02→"https://www.", 0x03→"http://",
0x04→"https://", etc.`) and the NFC Forum URI Record Type Definition it cites. -/
def NfcUriProtocols : List String :=
  ["", "http://www.", "https://www.", "http://", "https://", "tel:", "mailto:",
   "ftp://anonymous:anonymous@", "ftp://ftp.", "ftps://", "sftp://", "smb://",
   "nfs://", "ftp://", "dav://", "news:", "telnet://", "imap:", "rtsp://",
   "urn:", "pop:", "sip:", "sips:", "tftp:", "btspp://", "btl2cap://",
   "btgoep://", "tcpobex://", "irdaobex://", "file://", "urn:epc:id:",
   "urn:epc:tag:", "urn:epc:pat:", "urn:epc:raw:", "urn:epc:", "urn:nfc:"]

/-! ## The NDEF record decoder (`recordToJSON`) -/

/-- Input to `recordToJSON`: the fields of a CoreNFC `NFCNDEFPayload` the code
reads (`typeNameFormat`, `type`, `identifier`, `payload`). -/
structure NfcNdefRecordIn where
  tnf : Nat
  type : List (Fin 256)
  identifier : List (Fin 256)
  payload : List (Fin 256)
deriving DecidableEq

/-- Output record shape of `recordToJSON` (the TS `NfcNdefRecord` as this code
actually fills it: `type` is `undefined` when the type data is empty, and `id`
and `payload` are `JSON.stringify`-ed strings). -/
structure NfcNdefRecord where
  tnf : Nat
  type : Option Int
  id : String
  payload : String
  payloadAsHexString : String
  payloadAsStringWithPrefix : String
  payloadAsString : String
deriving DecidableEq

/-- `NFCNDEFReaderSessionDelegateImpl.recordToJSON`, line for line: hex-array
and ASCII decodings of the payload, type byte through `hexToDec`, then the
Text (84) / URI (85) special cases. -/
def recordToJSON (record : NfcNdefRecordIn) : NfcNdefRecord :=
  let payloadAsHexArray := nsdataToHexArray record.payload
  let payloadAsString0 := nsdataToASCIIString record.payload
  let payloadAsStringWithPrefix := payloadAsString0
  let recordType := nsdataToHexArray record.type
  let decimalType := recordType.head?.map hexToDec
  let payloadAsString :=
    if decimalType = some 84 then
      -- let languageCodeLength: number = +payloadAsHexArray[0];
      -- payloadAsString = payloadAsStringWithPrefix.substring(languageCodeLength + 1);
      jsSubstring payloadAsStringWithPrefix
        ((jsToNumberOpt payloadAsHexArray.head?).map (· + 1))
    else if decimalType = some 85 then
      -- let prefix = NfcUriProtocols[payloadAsHexArray[0]]; if (!prefix) prefix = '';
      let pfx :=
        match jsArrayGetString NfcUriProtocols payloadAsHexArray.head? with
        | some p => p
        | none => ""
      pfx ++ jsDropChars payloadAsString0 1
    else payloadAsString0
  { tnf := record.tnf
    type := decimalType
    id := hexToDecArray (nsdataToHexArray record.identifier)
    payload := hexToDecArray payloadAsHexArray
    payloadAsHexString := nsdataToHexString record.payload
    payloadAsStringWithPrefix := payloadAsStringWithPrefix
    payloadAsString := payloadAsString }

/-- The encoding the spec describes for `payloadAsHexString`: each byte as two
lowercase hexadecimal digits, concatenated. -/
def lowercaseHexEncoding (bytes : List (Fin 256)) : String :=
  jsJoinEmpty (bytes.map (fun b => String.mk [jsHexDigitChar (b.val / 16), jsHexDigitChar (b.val % 16)]))

/-! ## The Swift `NFCManager` bridge (scan/write sessions, result emission) -/

inductive NFCSessionMode
  | scan
  | write
deriving DecidableEq

/-- The flat result record the bridge serializes to JSON and hands to the
TypeScript callback. -/
structure ResultPayload where
  success : Bool
  message : String
  url : Option String := none
  text : Option String := none
  raw : Option String := none
  errorCode : Option String := none
deriving DecidableEq

/-- State of the Swift `NFCManager`: its stored properties, plus `emitted`, a
ghost log of the results actually delivered to the TypeScript callback (the
`resultCallback?(jsonStr)` calls), in order. -/
structure NFCManagerState where
  readerSession : Bool
  sessionMode : NFCSessionMode
  writeUrl : Option String
  callbackSet : Bool
  hasEmittedResult : Bool
  isSessionActive : Bool
  emitted : List ResultPayload
deriving DecidableEq

namespace NFCManager

/-- `emitResult`: guarded by `hasEmittedResult`; on emission the callback (if
still set) receives the payload and is then cleared. The `DispatchQueue.main`
hop of the source is modelled as the delivery itself. -/
def emitResult (st : NFCManagerState) (r : ResultPayload) : NFCManagerState :=
  if st.hasEmittedResult then st
  else
    { st with
      hasEmittedResult := true
      emitted := if st.callbackSet then st.emitted ++ [r] else st.emitted
      callbackSet := false }

/-- `emitResultIfNeeded`: skip when a result was already emitted. -/
def emitResultIfNeeded (st : NFCManagerState) (r : ResultPayload) : NFCManagerState :=
  if st.hasEmittedResult then st else emitResult st r

/-- `resetState`. -/
def resetState (st : NFCManagerState) : NFCManagerState :=
  { st with hasEmittedResult := false, isSessionActive := false }

/-- `cleanupSession`: invalidate and drop the reader session. -/
def cleanupSession (st : NFCManagerState) : NFCManagerState :=
  { st with readerSession := false, isSessionActive := false }

/-- `stopSession`: emit a `USER_STOPPED` result when nothing was emitted yet
and a callback is pending, then clean up. -/
def stopSession (st : NFCManagerState) : NFCManagerState :=
  cleanupSession
    (if !st.hasEmittedResult && st.callbackSet then
      emitResult st
        { success := false, message := "Session stopped by user.",
          errorCode := some "USER_STOPPED" }
    else st)

/-- `startSession(mode:)`. `avail` is `NFCNDEFReaderSession.readingAvailable`;
`createFails` models the (hypothetical) `nil` result of the session
constructor that the source guards against. -/
def startSession (avail createFails : Bool) (mode : NFCSessionMode)
    (st : NFCManagerState) : NFCManagerState :=
  let st := { st with readerSession := false }
  if !avail then
    emitResult st
      { success := false, message := "NFC not supported on this device.",
        errorCode := some "NFC_NOT_AVAILABLE" }
  else
    let st := { st with sessionMode := mode, hasEmittedResult := false }
    if createFails then
      emitResult st
        { success := false, message := "Failed to create NFC session.",
          errorCode := some "SESSION_CREATE_FAILED" }
    else
      { st with readerSession := true, isSessionActive := true }

/-- `scanWithCallback`: reset, install the callback, clear `writeUrl`, start a
scan session. -/
def scanWithCallback (avail createFails : Bool) (st : NFCManagerState) : NFCManagerState :=
  let st := resetState st
  let st := { st with callbackSet := true, writeUrl := none }
  startSession avail createFails .scan st

/-- `writeWithUrlCallback`: reset, install the callback, store the URL, start a
write session. -/
def writeWithUrlCallback (url : String) (avail createFails : Bool)
    (st : NFCManagerState) : NFCManagerState :=
  let st := resetState st
  let st := { st with callbackSet := true, writeUrl := some url }
  startSession avail createFails .write st

/-- The `NFCReaderError` cases distinguished by
`readerSession(_:didInvalidateWithError:)`, plus the non-NFC-error fallthrough. -/
inductive InvalidationReason
  | userCanceled
  | firstNDEFTagRead
  | sessionTimeout
  | terminatedUnexpectedly
  | systemBusy
  | connectionLost
  | tagResponseError
  | tagNotConnected
  | packetTooLong
  | retryExceeded
  | tagNotWritable
  | tagUpdateFailure
  | tagSizeTooSmall
  | zeroLengthMessage
  | unknownReaderError
  | nonNFCError
deriving DecidableEq

/-- The result each invalidation reason emits (via `emitResultIfNeeded`);
`firstNDEFTagRead` deliberately emits nothing. -/
def invalidationResult : InvalidationReason → Option ResultPayload
  | .userCanceled =>
    some { success := false, message := "Cancelled by user.", errorCode := some "USER_CANCELLED" }
  | .firstNDEFTagRead => none
  | .sessionTimeout =>
    some { success := false, message := "Session timed out. Please try again.",
           errorCode := some "SESSION_TIMEOUT" }
  | .terminatedUnexpectedly =>
    some { success := false, message := "Session terminated unexpectedly.",
           errorCode := some "SESSION_TERMINATED" }
  | .systemBusy =>
    some { success := false, message := "NFC is busy. Please try again.",
           errorCode := some "SYSTEM_BUSY" }
  | .connectionLost =>
    some { success := false, message := "Tag connection lost. Hold steady and try again.",
           errorCode := some "CONNECTION_LOST" }
  | .tagResponseError =>
    some { success := false, message := "Tag response error.", errorCode := some "TAG_RESPONSE_ERROR" }
  | .tagNotConnected =>
    some { success := false, message := "Tag not connected.", errorCode := some "TAG_NOT_CONNECTED" }
  | .packetTooLong =>
    some { success := false, message := "Data too large for this tag.",
           errorCode := some "PACKET_TOO_LONG" }
  | .retryExceeded =>
    some { success := false, message := "Communication failed after retries.",
           errorCode := some "RETRY_EXCEEDED" }
  | .tagNotWritable =>
    some { success := false, message := "Tag is not writable.", errorCode := some "TAG_NOT_WRITABLE" }
  | .tagUpdateFailure =>
    some { success := false, message := "Failed to write to tag.",
           errorCode := some "TAG_UPDATE_FAILURE" }
  | .tagSizeTooSmall =>
    some { success := false, message := "Tag capacity is too small for this data.",
           errorCode := some "TAG_SIZE_TOO_SMALL" }
  | .zeroLengthMessage =>
    some { success := false, message := "Tag contains empty message.",
           errorCode := some "ZERO_LENGTH_MESSAGE" }
  | .unknownReaderError =>
    some { success := false, message := "NFC error.", errorCode := some "UNKNOWN_NFC_ERROR" }
  | .nonNFCError =>
    some { success := false, message := "Error.", errorCode := some "UNKNOWN_ERROR" }

/-- `readerSession(_:didInvalidateWithError:)`: clear the session reference,
then emit (if needed) the result matching the invalidation reason. -/
def didInvalidateWithError (reason : InvalidationReason) (st : NFCManagerState) :
    NFCManagerState :=
  let st := { st with readerSession := false, isSessionActive := false }
  match invalidationResult reason with
  | none => st
  | some r => emitResultIfNeeded st r

/-- `emitAndClose`: emit the result, then (after the alert delay) invalidate
the session and clear the references. -/
def emitAndClose (st : NFCManagerState) (r : ResultPayload) : NFCManagerState :=
  let st := emitResult st r
  { st with readerSession := false, isSessionActive := false }

/-- `readerSession(_:didDetect:)` with zero or multiple tags restarts polling
and with one tag spawns `processTag`; neither emits by itself (every
`processTag` path ends in an `emitAndClose`, which arrives as its own event). -/
def didDetectTags (_tagCount : Nat) (st : NFCManagerState) : NFCManagerState :=
  st

end NFCManager

/-- The callback/events a running session can receive, as the delegate and
`processTag` code paths deliver them. `tagOutcome r` stands for any
`processTag` branch reaching `emitAndClose` with payload `r` (scan success,
scan of an empty tag, write success, `TAG_NOT_NDEF`, `TAG_READ_ONLY`,
`READ_ERROR`, `RECORD_CREATION_ERROR`, `INVALID_URL`, `WRITE_ERROR`,
`UNKNOWN_NDEF_STATUS`, `TAG_PROCESSING_ERROR`). `stop` is an explicit
`stopSession()` call from TypeScript. -/
inductive NMEvent
  | invalidated (reason : NFCManager.InvalidationReason)
  | tagOutcome (r : ResultPayload)
  | detectTags (tagCount : Nat)
  | detectNDEFs
  | stop
deriving DecidableEq

/-- One delegate event against the `NFCManager` state. -/
def nmStep (st : NFCManagerState) (e : NMEvent) : NFCManagerState :=
  match e with
  | .invalidated reason => NFCManager.didInvalidateWithError reason st
  | .tagOutcome r => NFCManager.emitAndClose st r
  | .detectTags n => NFCManager.didDetectTags n st
  | .detectNDEFs => st
  | .stop => NFCManager.stopSession st

/-- A whole session run: the events delivered after the start call, in order. -/
def nmRun (st : NFCManagerState) (evs : List NMEvent) : NFCManagerState :=
  evs.foldl nmStep st

/-- The session endings named by the exactly-once claim: timeout, user
cancellation, system busy, tag connection loss, unexpected termination, or an
explicit `stopSession` call. -/
def claimTerminator : NMEvent → Bool
  | .invalidated .userCanceled => true
  | .invalidated .sessionTimeout => true
  | .invalidated .systemBusy => true
  | .invalidated .connectionLost => true
  | .invalidated .terminatedUnexpectedly => true
  | .stop => true
  | _ => false

/-- A session start: `scanWithCallback` or `writeWithUrlCallback`, with the
environment bits (NFC availability, session-creation failure). -/
inductive StartCall
  | scan (avail createFails : Bool)
  | write (url : String) (avail createFails : Bool)

def startCall : StartCall → NFCManagerState → NFCManagerState
  | .scan a c, st => NFCManager.scanWithCallback a c st
  | .write u a c, st => NFCManager.writeWithUrlCallback u a c st

/-! ## The TypeScript `Nfc` class (promise-returning API surface) -/

/-- Outcome of a TypeScript `Promise`: `pending` is a promise still waiting on
a native callback. -/
inductive Promised (α : Type)
  | resolved (val : α)
  | rejected (msg : String)
  | pending
deriving DecidableEq

/-- Environment probed by `Nfc.available()` / `Nfc._available()`:
whether the native `NFCManager` was found at construction, what its
`isAvailable()` call does (`Except.error` models a thrown exception), the
iOS-11 selector check, and what reading `NFCNDEFReaderSession.readingAvailable`
does. -/
structure AvailEnv where
  hasNativeManager : Bool
  nativeIsAvailable : Except Unit Bool
  isIOS11OrUp : Bool
  readingAvailable : Except Unit Bool

/-- `Nfc._available()`: on iOS 11+, return `readingAvailable`, with a thrown
exception caught and turned into `false`; `false` on older iOS. -/
def Nfc.staticAvailable (env : AvailEnv) : Bool :=
  if env.isIOS11OrUp then
    match env.readingAvailable with
    | .ok b => b
    | .error _ => false
  else false

/-- `Nfc.available()`: try `nativeManager.isAvailable()` first (a thrown
exception falls through), else resolve with the static check. Every path
resolves. -/
def Nfc.available (env : AvailEnv) : Promised Bool :=
  if env.hasNativeManager then
    match env.nativeIsAvailable with
    | .ok b => .resolved b
    | .error _ => .resolved (Nfc.staticAvailable env)
  else .resolved (Nfc.staticAvailable env)

/-- `Nfc.enabled()`: the source returns `this.available()` unchanged. -/
def Nfc.enabled (env : AvailEnv) : Promised Bool :=
  Nfc.available env

/-- TypeScript-side state of an `Nfc` instance: the native manager (with its
state) when it was found, and whether a delegate-based
`NFCNDEFReaderSession` is held in `this.session`. -/
structure NfcState where
  nativeManager : Option NFCManagerState
  session : Bool
deriving DecidableEq

/-- `Nfc.invalidateSession()`: stop the native manager session if present
(errors swallowed), then invalidate and clear the delegate session if held. -/
def Nfc.invalidateSession (s : NfcState) : NfcState :=
  { nativeManager := s.nativeManager.map NFCManager.stopSession
    session := false }

/-- `Nfc.stopListening()`: invalidate, then resolve `true`; no path rejects. -/
def Nfc.stopListening (s : NfcState) : NfcState × Promised Bool :=
  (Nfc.invalidateSession s, .resolved true)

structure NfcUriRecord where
  uri : String
deriving DecidableEq

structure NfcTextRecord where
  text : String
  languageCode : Option String := none
deriving DecidableEq

/-- `WriteTagOptions`: both record lists are optional. -/
structure WriteTagOptions where
  uriRecords : Option (List NfcUriRecord) := none
  textRecords : Option (List NfcTextRecord) := none
deriving DecidableEq

/-- `Nfc.writeTag(arg)`: reject without a native manager; take the first URI
record's `uri` when present; reject "not supported" when only text records
were supplied; reject "no URI record" when `urlToWrite` stays falsy (absent
or the empty string); otherwise hand the URL to the native
`writeWithUrlCallback` (the promise then waits on the native callback). -/
def Nfc.writeTag (avail createFails : Bool) (s : NfcState) (arg : WriteTagOptions) :
    NfcState × Promised (Bool × String) :=
  match s.nativeManager with
  | none => (s, .rejected "NFC write not available - native manager not initialized")
  | some nm =>
    match arg.uriRecords with
    | some (r :: _) =>
      if r.uri = "" then
        (s, .rejected "No URI record provided for writing")
      else
        ({ s with nativeManager := some (NFCManager.writeWithUrlCallback r.uri avail createFails nm) },
         .pending)
    | _ =>
      match arg.textRecords with
      | some (_ :: _) =>
        (s, .rejected "Writing text records not supported. Please provide a URI record.")
      | _ => (s, .rejected "No URI record provided for writing")

/-- `Nfc.eraseTag()`: always rejects as unavailable on iOS. -/
def Nfc.eraseTag (s : NfcState) : NfcState × Promised Bool :=
  (s, .rejected "Erase tag not available on iOS")

/-! ## Exactly-once result emission (session invariant) -/

/-- Session invariant, relative to the number `base` of results delivered
before the session began: the session has delivered exactly one result iff
`hasEmittedResult`, and before the one emission the TypeScript callback is
still installed. -/
def SessInv (base : Nat) (st : NFCManagerState) : Prop :=
  st.emitted.length = base + (if st.hasEmittedResult then 1 else 0) ∧
  (st.hasEmittedResult = false → st.callbackSet = true)

lemma emitResult_hasEmitted (st : NFCManagerState) (r : ResultPayload) :
    (NFCManager.emitResult st r).hasEmittedResult = true := by
  unfold NFCManager.emitResult
  by_cases he : st.hasEmittedResult <;> simp [he]

lemma emitResultIfNeeded_hasEmitted (st : NFCManagerState) (r : ResultPayload) :
    (NFCManager.emitResultIfNeeded st r).hasEmittedResult = true := by
  unfold NFCManager.emitResultIfNeeded
  by_cases he : st.hasEmittedResult <;> simp [he, emitResult_hasEmitted]

lemma emitResult_sessInv {base : Nat} {st : NFCManagerState} (r : ResultPayload)
    (h : SessInv base st) : SessInv base (NFCManager.emitResult st r) := by
  obtain ⟨h1, h2⟩ := h
  unfold NFCManager.emitResult
  by_cases he : st.hasEmittedResult
  · have h : SessInv base st := ⟨h1, h2⟩
    simpa [NFCManager.emitResult, he] using h
  · have hc : st.callbackSet = true := h2 (by simpa using he)
    refine ⟨?_, ?_⟩
    · simp only [he] at h1
      simp [he, hc, h1]
    · intro hf
      simp [he] at hf

lemma emitResultIfNeeded_sessInv {base : Nat} {st : NFCManagerState} (r : ResultPayload)
    (h : SessInv base st) : SessInv base (NFCManager.emitResultIfNeeded st r) := by
  unfold NFCManager.emitResultIfNeeded
  by_cases he : st.hasEmittedResult
  · simpa [he] using h
  · simpa [he] using emitResult_sessInv r h

lemma nmStep_sessInv {base : Nat} {st : NFCManagerState} (e : NMEvent)
    (h : SessInv base st) : SessInv base (nmStep st e) := by
  obtain ⟨h1, h2⟩ := h
  cases e with
  | invalidated reason =>
    simp only [nmStep, NFCManager.didInvalidateWithError]
    cases hr : NFCManager.invalidationResult reason with
    | none => exact ⟨h1, h2⟩
    | some r => exact emitResultIfNeeded_sessInv r ⟨h1, h2⟩
  | tagOutcome r =>
    simp only [nmStep, NFCManager.emitAndClose]
    have h : SessInv base st := ⟨h1, h2⟩
    exact emitResult_sessInv r h
  | detectTags n => exact ⟨h1, h2⟩
  | detectNDEFs => exact ⟨h1, h2⟩
  | stop =>
    simp only [nmStep, NFCManager.stopSession, NFCManager.cleanupSession]
    by_cases hcond : !st.hasEmittedResult && st.callbackSet
    · simp only [hcond, if_true]
      exact emitResult_sessInv _ ⟨h1, h2⟩
    · simp only [hcond, if_false]
      exact ⟨h1, h2⟩

lemma nmRun_sessInv {base : Nat} (evs : List NMEvent) :
    ∀ st : NFCManagerState, SessInv base st → SessInv base (nmRun st evs) := by
  induction evs with
  | nil => intro st h; exact h
  | cons e t ih =>
    intro st h
    exact ih (nmStep st e) (nmStep_sessInv e h)

lemma nmStep_hasEmitted_mono {st : NFCManagerState} (e : NMEvent)
    (h : st.hasEmittedResult = true) : (nmStep st e).hasEmittedResult = true := by
  cases e with
  | invalidated reason =>
    simp only [nmStep, NFCManager.didInvalidateWithError]
    cases NFCManager.invalidationResult reason with
    | none => exact h
    | some r => exact emitResultIfNeeded_hasEmitted _ r
  | tagOutcome r =>
    simp only [nmStep, NFCManager.emitAndClose]
    simp [emitResult_hasEmitted]
  | detectTags n => exact h
  | detectNDEFs => exact h
  | stop =>
    simp only [nmStep, NFCManager.stopSession, NFCManager.cleanupSession]
    by_cases hcond : !st.hasEmittedResult && st.callbackSet
    · simp [hcond, emitResult_hasEmitted]
    · simp [hcond, h]

lemma nmRun_hasEmitted_mono (evs : List NMEvent) :
    ∀ st : NFCManagerState, st.hasEmittedResult = true →
      (nmRun st evs).hasEmittedResult = true := by
  induction evs with
  | nil => intro st h; exact h
  | cons e t ih => intro st h; exact ih (nmStep st e) (nmStep_hasEmitted_mono e h)

/-- A session-ending event from the claim's list always leaves
`hasEmittedResult` set. -/
lemma nmStep_terminator_hasEmitted {base : Nat} {st : NFCManagerState} {e : NMEvent}
    (hinv : SessInv base st) (hterm : claimTerminator e = true) :
    (nmStep st e).hasEmittedResult = true := by
  obtain ⟨h1, h2⟩ := hinv
  cases e with
  | invalidated reason =>
    cases reason <;>
      first
      | exact absurd hterm (by decide)
      | simp [nmStep, NFCManager.didInvalidateWithError, NFCManager.invalidationResult,
          emitResultIfNeeded_hasEmitted]
  | tagOutcome r => simp [claimTerminator] at hterm
  | detectTags n => simp [claimTerminator] at hterm
  | detectNDEFs => simp [claimTerminator] at hterm
  | stop =>
    simp only [nmStep, NFCManager.stopSession, NFCManager.cleanupSession]
    by_cases he : st.hasEmittedResult
    · simp [he]
    · have hc : st.callbackSet = true := h2 (by simpa using he)
      simp [he, hc, emitResult_hasEmitted]

lemma nmRun_terminator_hasEmitted {base : Nat} (evs : List NMEvent) :
    ∀ st : NFCManagerState, SessInv base st →
      (∃ e ∈ evs, claimTerminator e = true) →
      (nmRun st evs).hasEmittedResult = true := by
  induction evs with
  | nil =>
    intro st _ h
    obtain ⟨e, he, _⟩ := h
    exact absurd he (List.not_mem_nil e)
  | cons e t ih =>
    intro st hinv hex
    obtain ⟨e', he', ht'⟩ := hex
    rcases List.mem_cons.mp he' with rfl | hmem
    · exact nmRun_hasEmitted_mono t _ (nmStep_terminator_hasEmitted hinv ht')
    · exact ih (nmStep st e) (nmStep_sessInv e hinv) ⟨e', hmem, ht'⟩

/-- Starting a session (either entry point, any availability / creation
outcome) establishes the session invariant over the caller's previous
delivery count. -/
lemma startCall_sessInv (s : StartCall) (st0 : NFCManagerState) :
    SessInv st0.emitted.length (startCall s st0) := by
  have core : ∀ (a c : Bool) (m : NFCSessionMode) (w : Option String),
      SessInv st0.emitted.length
        (NFCManager.startSession a c m
          { NFCManager.resetState st0 with callbackSet := true, writeUrl := w }) := by
    intro a c m w
    cases a <;> cases c <;>
      simp [NFCManager.startSession, NFCManager.resetState, NFCManager.emitResult, SessInv]
  cases s with
  | scan a c => exact core a c .scan none
  | write u a c => exact core a c .write (some u)

/-! ## Concrete inputs used by the claims -/

/-- The Swift `NFCManager`'s stored-property values right after `init`. -/
def freshManagerState : NFCManagerState :=
  { readerSession := false, sessionMode := .scan, writeUrl := none,
    callbackSet := false, hasEmittedResult := false, isSessionActive := false,
    emitted := [] }

/-- URI record (type byte `0x55`) with payload `[0x02, 'e','x','a','m','p','l','e','.','c','o','m']`. -/
def c2Input : NfcNdefRecordIn :=
  { tnf := 1, type := [0x55], identifier := [],
    payload := [0x02, 0x65, 0x78, 0x61, 0x6d, 0x70, 0x6c, 0x65, 0x2e, 0x63, 0x6f, 0x6d] }

/-- Text record (type byte `0x54`) whose status byte `0x0a` declares a
10-character language code (`"aaaaaaaaaa"`), followed by the text `"Hi"`. -/
def c3Input : NfcNdefRecordIn :=
  { tnf := 1, type := [0x54], identifier := [],
    payload := [0x0a, 0x61, 0x61, 0x61, 0x61, 0x61, 0x61, 0x61, 0x61, 0x61, 0x61, 0x48, 0x69] }

/-- Text record with an empty payload (malformed: the status byte is missing). -/
def emptyTextRecordIn : NfcNdefRecordIn :=
  { tnf := 1, type := [0x54], identifier := [], payload := [] }

/-- URI record with an empty payload (malformed: the identifier-code byte is
missing). -/
def emptyUriRecordIn : NfcNdefRecordIn :=
  { tnf := 1, type := [0x55], identifier := [], payload := [] }

/-! ## Claim theorems -/

/-- C1: every scan or write session started via the native manager
(`scanWithCallback` / `writeWithUrlCallback`) delivers exactly one outcome to
the caller's callback: at most one over any sequence of delegate events, and
exactly one whenever the session ends by timeout, user cancellation, system
busy state, tag connection loss, unexpected termination, or an explicit
`stopSession` call. -/
theorem c1_exactly_one_result_per_session
    (st0 : NFCManagerState) (s : StartCall) (evs : List NMEvent)
    (hterm : ∃ e ∈ evs, claimTerminator e = true) :
    (nmRun (startCall s st0) evs).emitted.length = st0.emitted.length + 1 ∧
    ∀ evs' : List NMEvent,
      (nmRun (startCall s st0) evs').emitted.length ≤ st0.emitted.length + 1 := by
  have hstart := startCall_sessInv s st0
  constructor
  · obtain ⟨h1, _⟩ := nmRun_sessInv evs _ hstart
    have hemit := nmRun_terminator_hasEmitted evs _ hstart hterm
    simpa [hemit] using h1
  · intro evs'
    obtain ⟨h1, _⟩ := nmRun_sessInv evs' _ hstart
    by_cases he : (nmRun (startCall s st0) evs').hasEmittedResult <;>
      simp [he] at h1 <;> omega

/-- Witness for C1: a fresh manager, a scan started with NFC available, then
an immediate `stopSession()`: exactly one result is delivered. -/
theorem c1_exactly_one_result_per_session_witness :
    (nmRun (startCall (.scan true false) freshManagerState) [.stop]).emitted.length = 0 + 1 :=
  (c1_exactly_one_result_per_session freshManagerState (.scan true false) [.stop]
    ⟨NMEvent.stop, List.mem_singleton.mpr rfl, rfl⟩).1

/-- C2 (code bug): for the claim's own example — URI-typed payload
`[0x02, 'e','x','a','m','p','l','e','.','c','o','m']` — the decoder does NOT
prepend the prefix-table entry at index 2. `buf2hexArray` renders the first
byte as the string `"02"`, and the JavaScript array lookup
`NfcUriProtocols["02"]` misses every entry ("02" is not a canonical index),
so the fallback empty prefix is used and the result is `"example.com"`. -/
theorem c2_uri_prefix_lookup_misses_table :
    (recordToJSON c2Input).payloadAsString = "example.com" ∧
    NfcUriProtocols.get? 2 = some "https://www." ∧
    ¬ (recordToJSON c2Input).payloadAsString = "https://www." ++ "example.com" := by
  decide

/-- C3 (code bug): for a Text record whose status byte is `0x0a` (language
code of length 10, low six bits `10`), the claim demands stripping
`10 + 1 = 11` leading characters, leaving `"Hi"`; the code instead applies
JavaScript unary `+` to the hex string `"0a"`, which is `NaN`, so
`substring(NaN + 1)` strips nothing and `payloadAsString` stays equal to
`payloadAsStringWithPrefix`. -/
theorem c3_text_language_length_not_low_six_bits :
    (recordToJSON c3Input).payloadAsString = (recordToJSON c3Input).payloadAsStringWithPrefix ∧
    (recordToJSON c3Input).payloadAsStringWithPrefix = "\x0aaaaaaaaaaaHi" ∧
    jsDropChars ((recordToJSON c3Input).payloadAsStringWithPrefix) (10 + 1) = "Hi" ∧
    ¬ (recordToJSON c3Input).payloadAsString = "Hi" := by
  decide

set_option maxRecDepth 4000 in
lemma jsByteToHex_eq_two_digit (b : Fin 256) :
    jsByteToHex b.val = String.mk [jsHexDigitChar (b.val / 16), jsHexDigitChar (b.val % 16)] := by
  revert b
  decide

lemma buf2hexString_eq_lowercaseHexEncoding (bs : List (Fin 256)) :
    buf2hexString bs = lowercaseHexEncoding bs := by
  induction bs with
  | nil => rfl
  | cons b t ih =>
    simp only [buf2hexString, lowercaseHexEncoding, List.map_cons, jsJoinEmpty] at ih ⊢
    rw [jsByteToHex_eq_two_digit b, ih]

/-- C4: for every NDEF record, whatever its type, `payloadAsHexString` is the
lowercase hexadecimal encoding of the raw payload bytes, two digits per byte. -/
theorem c4_payloadAsHexString_is_lowercase_hex (r : NfcNdefRecordIn) :
    (recordToJSON r).payloadAsHexString = lowercaseHexEncoding r.payload := by
  simp only [recordToJSON, nsdataToHexString]
  exact buf2hexString_eq_lowercaseHexEncoding r.payload

/-- C5: `available()` resolves with a boolean in every environment (it never
rejects), and resolves `false` when NFC is absent on both probes (native
manager missing or its probe throwing, and the framework probe missing or
throwing). -/
theorem c5_available_never_rejects (env : AvailEnv) :
    (∃ b : Bool, Nfc.available env = .resolved b) ∧
    ((env.hasNativeManager = false ∨ env.nativeIsAvailable = .error ()) →
     (env.isIOS11OrUp = false ∨ env.readingAvailable = .error ()) →
     Nfc.available env = .resolved false) := by
  obtain ⟨nm, nia, ios, ra⟩ := env
  constructor
  · cases nm <;> cases nia <;> cases ios <;> cases ra <;> exact ⟨_, rfl⟩
  · intro h1 h2
    cases nm <;> cases nia <;> cases ios <;> cases ra <;>
      simp_all [Nfc.available, Nfc.staticAvailable]

/-- Witness for C5: no native manager and a throwing framework probe still
resolve, with `false`. -/
theorem c5_available_never_rejects_witness :
    Nfc.available ⟨false, .error (), false, .error ()⟩ = .resolved false :=
  (c5_available_never_rejects ⟨false, .error (), false, .error ()⟩).2
    (Or.inl rfl) (Or.inl rfl)

lemma stopSession_idem (m : NFCManagerState) :
    NFCManager.stopSession (NFCManager.stopSession m) = NFCManager.stopSession m := by
  unfold NFCManager.stopSession NFCManager.cleanupSession NFCManager.emitResult
  by_cases he : m.hasEmittedResult <;> by_cases hc : m.callbackSet <;> simp [he, hc]

/-- C6: `stopListening()` resolves successfully from every state (no scan
active, repeated stops included), and a second call returns the same
resolution and leaves the state exactly where the first call left it. -/
theorem c6_stopListening_idempotent_noop (s : NfcState) :
    (Nfc.stopListening s).2 = .resolved true ∧
    Nfc.stopListening (Nfc.stopListening s).1 = Nfc.stopListening s := by
  constructor
  · rfl
  · unfold Nfc.stopListening Nfc.invalidateSession
    cases hnm : s.nativeManager with
    | none => simp
    | some m => simp [stopSession_idem m]

/-- C7: `writeTag` with neither URI records nor text records (absent or empty
lists) rejects with the no-data error; the embedding is total, so no path
crashes, and the TypeScript state is returned unchanged. -/
theorem c7_writeTag_no_records_rejects
    (avail createFails : Bool) (s : NfcState) (nm : NFCManagerState)
    (arg : WriteTagOptions)
    (hm : s.nativeManager = some nm)
    (hu : arg.uriRecords = none ∨ arg.uriRecords = some [])
    (ht : arg.textRecords = none ∨ arg.textRecords = some []) :
    Nfc.writeTag avail createFails s arg =
      (s, .rejected "No URI record provided for writing") := by
  unfold Nfc.writeTag
  rcases hu with hu | hu <;> rcases ht with ht | ht <;> simp [hm, hu, ht]

/-- Witness for C7: a fresh instance with a native manager and an empty
options object. -/
theorem c7_writeTag_no_records_rejects_witness :
    Nfc.writeTag true false ⟨some freshManagerState, false⟩ ⟨none, none⟩ =
      (⟨some freshManagerState, false⟩, .rejected "No URI record provided for writing") :=
  c7_writeTag_no_records_rejects true false _ freshManagerState _ rfl
    (Or.inl rfl) (Or.inl rfl)

/-- C8 counterexample: on the malformed inputs the claim names (empty payload
for a Text- or URI-typed record) the decoder returns a plain, fully populated
record — the output type, faithful to the source, has no error case and the
result carries no error indication — so it does not "produce a decode error". -/
theorem c8_counterexample_no_decode_error :
    recordToJSON emptyTextRecordIn = ⟨1, some 84, "[]", "[]", "", "", ""⟩ ∧
    recordToJSON emptyUriRecordIn = ⟨1, some 85, "[]", "[]", "", "", ""⟩ := by
  decide

/-- C8 (amended): the decoder is pure and deterministic — its output depends
only on the record's `tnf`, `type`, `identifier` and `payload` fields — and on
the malformed inputs (empty payload where a length byte is expected) it does
not crash: it returns an ordinary record whose decoded strings are empty. -/
theorem c8_decoder_deterministic_and_total
    (r1 r2 : NfcNdefRecordIn)
    (h1 : r1.tnf = r2.tnf) (h2 : r1.type = r2.type)
    (h3 : r1.identifier = r2.identifier) (h4 : r1.payload = r2.payload) :
    recordToJSON r1 = recordToJSON r2 ∧
    (recordToJSON emptyTextRecordIn).payloadAsString = "" ∧
    (recordToJSON emptyUriRecordIn).payloadAsString = "" := by
  refine ⟨?_, by decide, by decide⟩
  obtain ⟨a1, b1, c1, d1⟩ := r1
  obtain ⟨a2, b2, c2, d2⟩ := r2
  dsimp at h1 h2 h3 h4
  subst h1; subst h2; subst h3; subst h4
  rfl

/-- Witness for C8's amended theorem, applied at the empty Text record. -/
theorem c8_decoder_deterministic_and_total_witness :
    recordToJSON emptyTextRecordIn = recordToJSON emptyTextRecordIn ∧
    (recordToJSON emptyTextRecordIn).payloadAsString = "" ∧
    (recordToJSON emptyUriRecordIn).payloadAsString = "" :=
  c8_decoder_deterministic_and_total emptyTextRecordIn emptyTextRecordIn
    rfl rfl rfl rfl

/-- C9: `enabled()` returns `this.available()` unchanged, so the two calls
produce identical outcomes in every environment. -/
theorem c9_enabled_equals_available (env : AvailEnv) :
    Nfc.enabled env = Nfc.available env :=
  rfl

/-- C10: `writeTag` with only text records (non-empty `textRecords`, no or
empty `uriRecords`) rejects with the "not supported" error before the native
`writeWithUrlCallback` is ever invoked: the returned state is exactly the
input state. -/
theorem c10_writeTag_text_only_rejects_before_native_write
    (avail createFails : Bool) (s : NfcState) (nm : NFCManagerState)
    (arg : WriteTagOptions) (ts : List NfcTextRecord)
    (hm : s.nativeManager = some nm)
    (hu : arg.uriRecords = none ∨ arg.uriRecords = some [])
    (ht : arg.textRecords = some ts) (hts : ts ≠ []) :
    Nfc.writeTag avail createFails s arg =
      (s, .rejected "Writing text records not supported. Please provide a URI record.") := by
  cases ts with
  | nil => exact absurd rfl hts
  | cons t rest =>
    unfold Nfc.writeTag
    rcases hu with hu | hu <;> simp [hm, hu, ht]

/-- Witness for C10: only a text record supplied; the state (native manager
included) comes back unchanged. -/
theorem c10_writeTag_text_only_rejects_before_native_write_witness :
    Nfc.writeTag true false ⟨some freshManagerState, false⟩
        ⟨none, some [⟨"hello", none⟩]⟩ =
      (⟨some freshManagerState, false⟩,
       .rejected "Writing text records not supported. Please provide a URI record.") :=
  c10_writeTag_text_only_rejects_before_native_write true false _ freshManagerState _
    [⟨"hello", none⟩] rfl (Or.inl rfl) rfl (List.cons_ne_nil _ _)
